import Mathlib

/-!
Verification of the up2b upload/compression/credential pipeline
(`src/up2b/up2b_lib/up2b_api/__init__.py`) against its specification.

The Python code is shallowly embedded: JSON/Python values become the
inductive `PyVal`, the on-disk config file becomes `ConfFile`, exceptions
become `Except`/`Option` results, and external effects (file sizes, PIL
decoding, JPEG encoding, HTTP responses) become explicit oracle
parameters.  Each definition is translated directly from the source
function named in its doc comment.
-/

set_option autoImplicit false

namespace Up2b

/-- Python exception classes that the embedded code distinguishes. -/
inductive PyErr where
  | keyError
  | indexError
  | typeError
deriving DecidableEq, Repr

/-- Python dict assignment `d[k] = v` on an entry list: replace the
first binding of `k`, or append a new one, keeping insertion order. -/
def dictSet {α : Type} : List (String × α) → String → α → List (String × α)
  | [], k, v => [(k, v)]
  | (k', v') :: rest, k, v =>
      if k' = k then (k, v) :: rest else (k', v') :: dictSet rest k v

/-- Python/JSON values as manipulated by the config code: strings,
integers, dicts (association lists in insertion order) and lists. -/
inductive PyVal where
  | vstr (s : String)
  | vint (n : Int)
  | vdict (entries : List (String × PyVal))
  | vlist (items : List PyVal)

namespace PyVal

/-- Embeds Python `d[key]` for a string key: `KeyError` when the key is
absent, `TypeError` when the value is not a dict. -/
def getItem : PyVal → String → Except PyErr PyVal
  | vdict es, k =>
      match es.lookup k with
      | some v => .ok v
      | none => .error .keyError
  | vstr _, _ => .error .typeError
  | vint _, _ => .error .typeError
  | vlist _, _ => .error .typeError

/-- Embeds Python `l[i]` for a non-negative index on a list:
`IndexError` out of range, `TypeError` when not a list. -/
def index : PyVal → Nat → Except PyErr PyVal
  | vlist xs, i =>
      match xs[i]? with
      | some v => .ok v
      | none => .error .indexError
  | vstr _, _ => .error .typeError
  | vint _, _ => .error .typeError
  | vdict _, _ => .error .typeError

/-- Embeds Python `l[i] = v` on a list (functionally): `IndexError` when
`i` is out of range, `TypeError` when the receiver is not a list. -/
def setIndex : PyVal → Nat → PyVal → Except PyErr PyVal
  | vlist xs, i, v =>
      if i < xs.length then .ok (vlist (xs.set i v)) else .error .indexError
  | vstr _, _, _ => .error .typeError
  | vint _, _, _ => .error .typeError
  | vdict _, _, _ => .error .typeError

/-- Embeds Python `d[key] = v` on a dict (functionally); only called on
dicts in the embedded code paths. -/
def setItem : PyVal → String → PyVal → Except PyErr PyVal
  | vdict es, k, v => .ok (vdict (dictSet es k v))
  | vstr _, _, _ => .error .typeError
  | vint _, _, _ => .error .typeError
  | vlist _, _, _ => .error .typeError

/-- Python truthiness on the embedded values: empty strings, zero, empty
dicts and empty lists are falsy. -/
def truthy : PyVal → Bool
  | vstr s => !s.isEmpty
  | vint n => n != 0
  | vdict es => !es.isEmpty
  | vlist xs => !xs.isEmpty

end PyVal

/-- State of the JSON config file on disk: absent, present but not valid
JSON, or present and parsing to a value. -/
inductive ConfFile where
  | missing
  | invalid
  | stored (conf : PyVal)

/-- Embeds `Base._read_auth_info`: opens the config file, parses it as
JSON and returns `conf` indexed at `auth_data` then at the image-bed
code.  The whole body is wrapped in `try ... except Exception: return
None`, so every failure (missing file, malformed JSON, missing key, index
out of range, wrong types) is mapped to `none`. -/
def read_auth_info (code : Nat) : ConfFile → Option PyVal
  | .missing => none
  | .invalid => none
  | .stored conf =>
      match conf.getItem "auth_data" with
      | .error _ => none
      | .ok ad =>
          match ad.index code with
          | .error _ => none
          | .ok slot => some slot

/-- Outcome of `Base._save_auth_info`: the resulting file state, plus
whether a fatal diagnostic was emitted (the process terminates without
writing in that case). -/
structure SaveOutcome where
  file : ConfFile
  fatal : Bool

/-- The inner assignment `conf["auth_data"][code] = auth_info` of
`Base._save_auth_info`, propagating the Python exception it raises:
`KeyError` when `auth_data` is absent, `IndexError` when the list is too
short, `TypeError` on non-dict/non-list shapes. -/
def setAuthSlot (conf : PyVal) (code : Nat) (auth_info : PyVal) : Except PyErr PyVal :=
  match conf with
  | .vdict es =>
      match es.lookup "auth_data" with
      | none => .error .keyError
      | some ad =>
          match ad.setIndex code auth_info with
          | .ok ad' => .ok (.vdict (dictSet es "auth_data" ad'))
          | .error e => .error e
  | _ => .error .typeError

/-- Embeds `Base._save_auth_info`.  `numBeds` is the length of the
constant `IMAGE_BEDS_CODE` (defined in `constants.py`, outside the given
sources; kept as a parameter).  The source reads the file, attempts
`conf["auth_data"][code] = auth_info`; only `KeyError` is caught, in
which case `auth_data` is rebuilt as `numBeds` fresh empty dicts and the
assignment retried; any other exception (notably `IndexError` from a
too-short list) reaches the outer generic handler, which logs a fatal
diagnostic and never writes the file.  A missing file is likewise
fatal. -/
def save_auth_info (code numBeds : Nat) (auth_info : PyVal) : ConfFile → SaveOutcome
  | .missing => ⟨.missing, true⟩
  | .invalid => ⟨.invalid, true⟩
  | .stored conf =>
      match setAuthSlot conf code auth_info with
      | .ok conf' => ⟨.stored conf', false⟩
      | .error .keyError =>
          match conf.setItem "auth_data" (.vlist (List.replicate numBeds (.vdict []))) with
          | .ok conf1 =>
              match setAuthSlot conf1 code auth_info with
              | .ok conf2 => ⟨.stored conf2, false⟩
              | .error _ => ⟨.stored conf, true⟩
          | .error _ => ⟨.stored conf, true⟩
      | .error _ => ⟨.stored conf, true⟩

/-! Image references, size/type validation (`Base._exceed_max_size`,
`Base._check_images_valid`). -/

/-- Embeds `ImageType = Union[str, ImageStream]`.  A filesystem path
carries the byte size reported by `os.path.getsize`; an in-memory stream
(`ImageStream`, declared in `custom_types.py`, outside the given
sources) carries its filename, its `mime_type` field and the length of
its bytes, per the spec description of an ImageReference as either a
path or an in-memory stream with an explicit filename and MIME type. -/
inductive ImageType where
  | path (p : String) (size : Nat)
  | stream (filename mime : String) (size : Nat)
deriving DecidableEq, Repr

/-- Byte size of an image: `os.path.getsize(img)` for a path,
`len(img.stream)` for a stream. -/
def imageSize : ImageType → Nat
  | .path _ n => n
  | .stream _ _ n => n

/-- The identifier reported in size errors: the path itself for a path,
`img.filename` for a stream. -/
def imageIdent : ImageType → String
  | .path p _ => p
  | .stream f _ _ => f

/-- Embeds Python `s.split(sep)` for a one-character separator,
structurally over the character list of `s` (split at every occurrence,
keeping empty pieces; the result is never empty). -/
def pySplitAux (sep : Char) : List Char → List Char → List (List Char)
  | [], acc => [acc.reverse]
  | c :: rest, acc =>
      if c = sep then acc.reverse :: pySplitAux sep rest []
      else pySplitAux sep rest (c :: acc)

/-- Python `s.split(sep)` for a one-character separator. -/
def pySplit (sep : Char) (s : String) : List String :=
  (pySplitAux sep s.data []).map (fun cs => String.mk cs)

/-- Embeds Python `s.lower()` (ASCII case mapping, which is all the
extension/format tags involved need). -/
def pyLower (s : String) : String := String.mk (s.data.map Char.toLower)

/-- Embeds Python `s.upper()` (ASCII case mapping). -/
def pyUpper (s : String) : String := String.mk (s.data.map Char.toUpper)

/-- The MIME tag used by `_check_images_valid`: for a path,
`p.split(".")[-1].lower()`; for a stream, its `mime_type` field as-is
(the source lower-cases only the path branch). -/
def imageMime : ImageType → String
  | .path p _ => pyLower ((pySplit '.' p).getLastD "")
  | .stream _ m _ => m

/-- Embeds `Base._exceed_max_size`: scans the images in order and
returns `(True, name)` at the first image strictly larger than
`max_size`, else `(False, None)`. -/
def exceed_max_size (maxSize : Nat) : List ImageType → Bool × Option String
  | [] => (false, none)
  | img :: rest =>
      if imageSize img > maxSize then (true, some (imageIdent img))
      else exceed_max_size maxSize rest

/-- The exceptions raised by `Base._check_images_valid`. -/
inductive CheckError where
  | overSize (img : Option String)
  | unsupportedType (mime : String)
deriving DecidableEq, Repr

/-- First image whose MIME tag is outside the compressible set of
`_check_images_valid`, in scan order. -/
def findUnsupported : List ImageType → Option String
  | [] => none
  | img :: rest =>
      if imageMime img ∈ ["jpg", "png", "jpeg"] then findUnsupported rest
      else some (imageMime img)

/-- Embeds `Base._check_images_valid`: with auto-compression off, raises
`OverSizeError` at the first oversized image; with it on, scans every
image (no size test in this branch) and raises `UnsupportedType` with
the upper-cased MIME tag of the first image outside the set
jpg/png/jpeg. -/
def check_images_valid (maxSize : Nat) (autoCompress : Bool)
    (images : List ImageType) : Except CheckError Unit :=
  if !autoCompress then
    match exceed_max_size maxSize images with
    | (true, i) => .error (.overSize i)
    | (false, _) => .ok ()
  else
    match findUnsupported images with
    | some m => .error (.unsupportedType (pyUpper m))
    | none => .ok ()

/-! Compression (`Base._compress_image`).  PIL decoding and JPEG
encoding are external: a `decode` oracle gives the PIL view of an image
and an `encSize` oracle gives the byte size that `img.save(io, "jpeg")`
produces for a given decoded image. -/

/-- The PIL view of a decoded image: `img.format`, `img.mode` and
`img.size`. -/
structure PILImage where
  format : String
  mode : String
  width : Nat
  height : Nat
deriving DecidableEq, Repr

/-- One pass of the inner `compress` closure of `_compress_image`, up to
the candidate image that gets JPEG-encoded: PNG is converted to RGB with
dimensions untouched, JPEG is resized by `scale` (rational here, a
binary float in CPython; the claims below never depend on the rounding
of the JPEG branch), anything else raises `UnsupportedType` carrying the
format. -/
def compressStep (img : PILImage) (scale : ℚ) : Except String PILImage :=
  if img.format = "PNG" then
    .ok ⟨"JPEG", "RGB", img.width, img.height⟩
  else if img.format = "JPEG" then
    .ok ⟨"JPEG", img.mode, (scale * img.width).floor.toNat, (scale * img.height).floor.toNat⟩
  else
    .error img.format

/-- Failure modes of the compression loop. -/
inductive CompressError where
  | unsupportedType (format : String)
  | nonTermination
deriving DecidableEq, Repr

/-- Embeds the recursive `compress` closure: encode the candidate, and
if the encoded size still exceeds `max_size`, recompute the scale and
recurse on the already-transformed image.  The source imposes no
recursion cap, so the recursion is given explicit fuel; running out of
fuel models the unbounded-recursion risk the spec flags. -/
def compressLoop (encSize : PILImage → Nat) (maxSize : Nat) :
    Nat → PILImage → ℚ → Except CompressError (PILImage × Nat)
  | 0, _, _ => .error .nonTermination
  | fuel + 1, img, scale =>
      match compressStep img scale with
      | .error f => .error (.unsupportedType f)
      | .ok img' =>
          let n := encSize img'
          if n > maxSize then
            compressLoop encSize maxSize fuel img' ((maxSize : ℚ) / (n : ℚ))
          else
            .ok (img', n)

/-- Embeds `os.path.basename`: the part after the last slash. -/
def basename (p : String) : String := (pySplit '/' p).getLastD p

/-- Embeds `str(image)`.  For a path the string itself.  Modelled from
the spec for streams: `ImageStream` (custom_types.py, not among the
given sources) is the in-memory variant with an explicit filename, so
its string form is taken to be that filename. -/
def strOfImage : ImageType → String
  | .path p _ => p
  | .stream f _ _ => f

/-- The `filename` stem of `_compress_image`:
`os.path.basename(str(image)).split(".")[0]`, i.e. the part of the base
name before the first dot. -/
def cacheStem (image : ImageType) : String :=
  (pySplit '.' (basename (strOfImage image))).headD ""

/-- Result of `Base._compress_image`: the returned image reference (or
the exception it raises), together with the list of file names written
under the cache directory. -/
structure CompressOutcome where
  result : Except CompressError ImageType
  cacheWrites : List String
deriving Repr

/-- Embeds `Base._compress_image`.  Within budget: the original
reference is returned and nothing is written.  Oversized: decode, pick
the cache file name (stem plus `.jpeg` for PNG, stem plus the
lower-cased format otherwise), run the compress recursion, write the
final bytes to `cachePath/filename` and return that path. -/
def compress_image (decode : ImageType → PILImage) (encSize : PILImage → Nat)
    (maxSize fuel : Nat) (cachePath : String) (image : ImageType) : CompressOutcome :=
  let rawSize := imageSize image
  if rawSize > maxSize then
    let img := decode image
    let filename := cacheStem image ++
      (if img.format = "PNG" then ".jpeg" else "." ++ pyLower img.format)
    match compressLoop encSize maxSize fuel img ((maxSize : ℚ) / (rawSize : ℚ)) with
    | .error e => ⟨.error e, []⟩
    | .ok (_, n) => ⟨.ok (.path (cachePath ++ "/" ++ filename) n), [filename]⟩
  else
    ⟨.ok image, []⟩

/-! Upload pipeline (`GitBase._upload`, `GitBase.upload_images`,
`Base._clear_cache`) and deletion (`GitBase.delete_images`,
`GitBase._delete_image`).  The HTTP transport is an oracle mapping the
uploaded image to the response the service gives. -/

/-- The observable parts of an HTTP response as the source reads them:
`resp.status_code`, the download URL in the success body
(`resp.json()["content"]["download_url"]`) and the error message
(`resp.json()["message"]`). -/
structure HttpResponse where
  status : Nat
  downloadUrl : String
  message : String
deriving DecidableEq, Repr

/-- Result of a single upload: the public URL string, or the returned
`UploadErrorResponse(status_code, error, str(image))`. -/
inductive UploadResult where
  | url (u : String)
  | uploadError (status : Nat) (message : String) (image : String)
deriving DecidableEq, Repr

/-- Context an upload runs in: the login state, the per-bed limits and
flags, and the external oracles (PIL decoding, JPEG encoding size,
watermarker, HTTP transport, the optional bed-specific `cdn_url`
hook). -/
structure Env where
  loggedIn : Bool
  maxSize : Nat
  autoCompress : Bool
  addWatermark : Bool
  watermark : String → String
  decode : ImageType → PILImage
  encSize : PILImage → Nat
  fuel : Nat
  cachePath : String
  respond : ImageType → HttpResponse
  cdnUrl : Option (String → String)

/-- Shorthand for one `_compress_image` call under an environment. -/
def envCompress (env : Env) (image : ImageType) : CompressOutcome :=
  compress_image env.decode env.encSize env.maxSize env.fuel env.cachePath image

/-- Embeds the watermark step of `_upload`: only a path image (a `str`)
is passed to `_add_watermark`, which hands it to the external
watermarker when the flag is on and returns it unchanged otherwise. -/
def watermarkImage (env : Env) : ImageType → ImageType
  | .path p n => .path (if env.addWatermark then env.watermark p else p) n
  | .stream f m n => .stream f m n

/-- The `hasattr(self, "cdn_url")` dispatch: apply the hook when the
concrete bed defines one. -/
def applyCdn : Option (String → String) → String → String
  | some f, u => f u
  | none, u => u

/-- Embeds `GitBase._upload` for a logged-in session: compress (which
may raise, propagated as `.error`), watermark path images, send the
request, and map the response — 201 yields the download URL through the
optional `cdn_url` hook, anything else yields
`UploadErrorResponse(status, message, str(image))` as a value.  The
second component records the identifier of the image the request was
issued for. -/
def upload_one (env : Env) (image : ImageType) :
    Except CompressError (UploadResult × String) :=
  match (envCompress env image).result with
  | .error e => .error e
  | .ok img1 =>
      let img2 := watermarkImage env img1
      let resp := env.respond img2
      if resp.status = 201 then
        .ok (.url (applyCdn env.cdnUrl resp.downloadUrl), strOfImage img2)
      else
        .ok (.uploadError resp.status resp.message (strOfImage img2), strOfImage img2)

/-- The per-image loop of `upload_images`: results are appended in input
order; an exception from compression aborts the loop at that image
(later images are never requested).  The second component is the list of
image identifiers for which an HTTP request was issued. -/
def upload_loop (env : Env) :
    List ImageType → Except CompressError (List UploadResult) × List String
  | [] => (.ok [], [])
  | img :: rest =>
      match upload_one env img with
      | .error e => (.error e, [])
      | .ok (r, ident) =>
          match upload_loop env rest with
          | (.error e, ids) => (.error e, ident :: ids)
          | (.ok rs, ids) => (.ok (r :: rs), ident :: ids)

/-- Exceptions that abort a whole `upload_images` call. -/
inductive BatchError where
  | notLoggedIn
  | invalid (e : CheckError)
  | compressFailed (e : CompressError)
deriving DecidableEq, Repr

/-- Outcome of a batch upload: the returned list or the exception that
aborted the call, the HTTP requests issued (image identifiers, in
order), and whether `_clear_cache` ran. -/
structure BatchOutcome where
  result : Except BatchError (List UploadResult)
  requests : List String
  cacheCleared : Bool

/-- The post-loop `cdn_url` pass of `upload_images`: string items are
rewritten by the hook (a second time, on top of the rewrite `_upload`
already did), error values are left alone. -/
def cdnPass : Option (String → String) → List UploadResult → List UploadResult
  | some f, rs => rs.map (fun r => match r with
      | .url u => .url (f u)
      | .uploadError s m i => .uploadError s m i)
  | none, rs => rs

/-- Embeds `GitBase.upload_images`: `check_login` (fatal when not logged
in), `check_image_exists` (every modelled reference carries its size, so
existence always holds here), `_check_images_valid` (a raised policy
error aborts before the loop), then the per-image loop, the extra
`cdn_url` pass over string results, console output (unobserved) and
`_clear_cache`.  An exception at any stage propagates and `_clear_cache`
is never reached. -/
def upload_images (env : Env) (images : List ImageType) : BatchOutcome :=
  if !env.loggedIn then ⟨.error .notLoggedIn, [], false⟩
  else
    match check_images_valid env.maxSize env.autoCompress images with
    | .error e => ⟨.error (.invalid e), [], false⟩
    | .ok _ =>
        match upload_loop env images with
        | (.error e, ids) => ⟨.error (.compressFailed e), ids, false⟩
        | (.ok rs, ids) => ⟨.ok (cdnPass env.cdnUrl rs), ids, true⟩

/-- Delete-side error value `ErrorResponse(status_code, message)`. -/
structure ErrorResponse where
  status : Nat
  message : String
deriving DecidableEq, Repr

/-- Embeds `GitBase._delete_image` over the transport oracle: HTTP 200
means success (`None`), anything else returns
`ErrorResponse(status_code, message)`. -/
def delete_image (resp : HttpResponse) : Option ErrorResponse :=
  if resp.status = 200 then none else some ⟨resp.status, resp.message⟩

/-- The `failed` dict left by the loop of `GitBase.delete_images`,
threading the accumulator: each failure is stored by the assignment
`failed["sha"] = result`, with the literal key. -/
def delete_loop (respond : String → String → HttpResponse) :
    List (String × ErrorResponse) → List (String × String) → List (String × ErrorResponse)
  | failed, [] => failed
  | failed, (sha, u) :: rest =>
      match delete_image (respond sha u) with
      | some result => delete_loop respond (dictSet failed "sha" result) rest
      | none => delete_loop respond failed rest

/-- Embeds `GitBase.delete_images` for a logged-in session: start from
an empty `failed` dict and run the loop over the `(sha, url)` pairs.
The per-item `delete_image` of the concrete bed forwards to
`GitBase._delete_image`, whose response the `respond` oracle supplies
per item. -/
def delete_images (respond : String → String → HttpResponse)
    (info : List (String × String)) : List (String × ErrorResponse) :=
  delete_loop respond [] info

/-- The failures of a delete batch in input order, as
`GitBase._delete_image` reports them. -/
def failuresOf (respond : String → String → HttpResponse)
    (info : List (String × String)) : List ErrorResponse :=
  info.filterMap (fun su => delete_image (respond su.1 su.2))

/-! Helper lemmas about the embedded dict/list operations. -/

theorem lookup_dictSet_self {α : Type} (es : List (String × α)) (k : String) (v : α) :
    (dictSet es k v).lookup k = some v := by
  induction es with
  | nil => simp [dictSet, List.lookup]
  | cons hd tl ih =>
      obtain ⟨k', v'⟩ := hd
      by_cases h : k' = k
      · subst h
        simp [dictSet, List.lookup]
      · simp [dictSet, h, List.lookup, ih, beq_eq_false_iff_ne.mpr h,
          beq_eq_false_iff_ne.mpr (Ne.symm h)]

theorem lookup_dictSet_ne {α : Type} (es : List (String × α)) (k k2 : String) (v : α)
    (h : k2 ≠ k) : (dictSet es k v).lookup k2 = es.lookup k2 := by
  induction es with
  | nil =>
      simp [dictSet, List.lookup, beq_eq_false_iff_ne.mpr h,
        beq_eq_false_iff_ne.mpr (Ne.symm h)]
  | cons hd tl ih =>
      obtain ⟨k', v'⟩ := hd
      by_cases hk : k' = k
      · subst hk
        simp [dictSet, List.lookup, beq_eq_false_iff_ne.mpr h,
          beq_eq_false_iff_ne.mpr (Ne.symm h)]
      · simp [dictSet, hk, List.lookup, ih]

theorem dictSet_dictSet {α : Type} (es : List (String × α)) (k : String) (v1 v2 : α) :
    dictSet (dictSet es k v1) k v2 = dictSet es k v2 := by
  induction es with
  | nil => simp [dictSet]
  | cons hd tl ih =>
      obtain ⟨k', v'⟩ := hd
      by_cases h : k' = k
      · subst h
        simp [dictSet]
      · simp [dictSet, h, ih]

/-! Claim C3: behaviour of `_read_auth_info` across config states. -/

/-- C3 counterexample: on a config whose `auth_data` slot for the code
is present but empty, `_read_auth_info` returns the empty record itself,
not `None` — refuting the claim that an empty slot also yields none. -/
theorem read_auth_info_empty_slot_counterexample :
    read_auth_info 0 (.stored (.vdict [("auth_data", .vlist [.vdict []])]))
      = some (.vdict []) ∧
    some (PyVal.vdict []) ≠ (none : Option PyVal) :=
  ⟨rfl, by simp⟩

/-- C3 (amended): `_read_auth_info` never raises — its body is wrapped
in a catch-all returning `None` — and yields `none` when the file is
missing, malformed, lacks the `auth_data` key, or the code is out of
range; a slot that is present is returned as-is, so a present-but-empty
slot yields the empty record, which is falsy and hence still treated as
logged-out by `check_login`. -/
theorem read_auth_info_never_raises (code : Nat) :
    read_auth_info code .missing = none ∧
    read_auth_info code .invalid = none ∧
    (∀ es, es.lookup "auth_data" = none →
      read_auth_info code (.stored (.vdict es)) = none) ∧
    (∀ es xs, es.lookup "auth_data" = some (.vlist xs) → xs.length ≤ code →
      read_auth_info code (.stored (.vdict es)) = none) ∧
    (∀ es xs slot, es.lookup "auth_data" = some (.vlist xs) →
      xs[code]? = some slot →
      read_auth_info code (.stored (.vdict es)) = some slot) ∧
    PyVal.truthy (.vdict []) = false := by
  refine ⟨rfl, rfl, ?_, ?_, ?_, rfl⟩
  · intro es h
    simp [read_auth_info, PyVal.getItem, h]
  · intro es xs h hlen
    have hg : xs[code]? = none := by
      simp [List.getElem?_eq_none_iff, hlen]
    simp [read_auth_info, PyVal.getItem, h, PyVal.index, hg]
  · intro es xs slot h hg
    simp [read_auth_info, PyVal.getItem, h, PyVal.index, hg]

/-- Witness for `read_auth_info_never_raises` at concrete configs. -/
theorem read_auth_info_never_raises_witness :
    read_auth_info 2 (.stored (.vdict [("auth_data", .vlist [.vdict []])])) = none ∧
    read_auth_info 0 (.stored (.vdict [("image_bed", .vint 1)])) = none ∧
    read_auth_info 0 (.stored (.vdict [("auth_data", .vlist [.vstr "c"])]))
      = some (.vstr "c") :=
  ⟨(read_auth_info_never_raises 2).2.2.2.1 _ [.vdict []] rfl (by decide),
   (read_auth_info_never_raises 0).2.2.1 _ rfl,
   (read_auth_info_never_raises 0).2.2.2.2.1 _ [.vstr "c"] (.vstr "c") rfl rfl⟩

/-! Claim C2: the save-then-read round trip of `_save_auth_info` and
`_read_auth_info`. -/

/-- C2 counterexample: with a stored `auth_data` list shorter than the
code, the assignment raises `IndexError`, which the `KeyError`-only
handler does not catch — the save dies fatally with the file unmodified
(no extension with empty slots), and the subsequent read returns `none`
rather than the saved record. -/
theorem save_then_read_short_list_counterexample :
    save_auth_info 1 9 (.vstr "tok")
        (.stored (.vdict [("auth_data", .vlist [.vdict []])]))
      = ⟨.stored (.vdict [("auth_data", .vlist [.vdict []])]), true⟩ ∧
    read_auth_info 1 (save_auth_info 1 9 (.vstr "tok")
        (.stored (.vdict [("auth_data", .vlist [.vdict []])]))).file
      ≠ some (.vstr "tok") := by
  refine ⟨rfl, ?_⟩
  have h : read_auth_info 1 (save_auth_info 1 9 (.vstr "tok")
      (.stored (.vdict [("auth_data", .vlist [.vdict []])]))).file = none := rfl
  rw [h]
  simp

/-- C2 (amended): saving then reading with the same code returns an
equal record when the existing `auth_data` list already contains an
entry at the code, and when `auth_data` is absent altogether (the
`KeyError` handler rebuilds it with `numBeds` empty slots; the code must
lie below `numBeds`); but when `auth_data` exists and is shorter than
the code requires, no extension happens: the `IndexError` escapes to the
generic handler, the save is fatal and the file is unchanged. -/
theorem save_then_read_roundtrip (code numBeds : Nat) (ai : PyVal)
    (es : List (String × PyVal)) :
    (∀ xs, es.lookup "auth_data" = some (.vlist xs) → code < xs.length →
      (save_auth_info code numBeds ai (.stored (.vdict es))).fatal = false ∧
      read_auth_info code
        (save_auth_info code numBeds ai (.stored (.vdict es))).file = some ai) ∧
    (es.lookup "auth_data" = none → code < numBeds →
      (save_auth_info code numBeds ai (.stored (.vdict es))).fatal = false ∧
      read_auth_info code
        (save_auth_info code numBeds ai (.stored (.vdict es))).file = some ai) ∧
    (∀ xs, es.lookup "auth_data" = some (.vlist xs) → xs.length ≤ code →
      save_auth_info code numBeds ai (.stored (.vdict es))
        = ⟨.stored (.vdict es), true⟩) := by
  refine ⟨?_, ?_, ?_⟩
  · intro xs h hlt
    have hsave : save_auth_info code numBeds ai (.stored (.vdict es)) =
        ⟨.stored (.vdict (dictSet es "auth_data" (.vlist (xs.set code ai)))), false⟩ := by
      simp [save_auth_info, setAuthSlot, h, PyVal.setIndex, hlt]
    rw [hsave]
    exact ⟨rfl, by
      simp [read_auth_info, PyVal.getItem, lookup_dictSet_self, PyVal.index,
        List.getElem?_set_eq_of_lt ai hlt]⟩
  · intro h hlt
    have hsave : save_auth_info code numBeds ai (.stored (.vdict es)) =
        ⟨.stored (.vdict (dictSet (dictSet es "auth_data"
            (.vlist (List.replicate numBeds (.vdict [])))) "auth_data"
            (.vlist ((List.replicate numBeds (.vdict [])).set code ai)))), false⟩ := by
      simp [save_auth_info, setAuthSlot, h, PyVal.setItem, PyVal.setIndex,
        lookup_dictSet_self, hlt]
    rw [hsave]
    refine ⟨rfl, ?_⟩
    have hlt' : code < (List.replicate numBeds (PyVal.vdict [])).length := by
      simpa using hlt
    simp [read_auth_info, PyVal.getItem, lookup_dictSet_self, PyVal.index,
      List.getElem?_set_eq_of_lt ai hlt']
  · intro xs h hle
    simp [save_auth_info, setAuthSlot, h, PyVal.setIndex, Nat.not_lt.mpr hle]

/-- Witness for `save_then_read_roundtrip`: an in-range save into an
existing list, and a save into a config with no `auth_data` key. -/
theorem save_then_read_roundtrip_witness :
    ((save_auth_info 1 3 (.vstr "tok")
        (.stored (.vdict [("auth_data", .vlist [.vdict [], .vdict []])]))).fatal = false ∧
      read_auth_info 1 (save_auth_info 1 3 (.vstr "tok")
        (.stored (.vdict [("auth_data", .vlist [.vdict [], .vdict []])]))).file
        = some (.vstr "tok")) ∧
    ((save_auth_info 2 5 (.vstr "tok2")
        (.stored (.vdict [("image_bed", .vint 0)]))).fatal = false ∧
      read_auth_info 2 (save_auth_info 2 5 (.vstr "tok2")
        (.stored (.vdict [("image_bed", .vint 0)]))).file = some (.vstr "tok2")) :=
  ⟨(save_then_read_roundtrip 1 3 _ _).1 [.vdict [], .vdict []] rfl (by decide),
   (save_then_read_roundtrip 2 5 _ _).2.1 rfl (by decide)⟩

/-! Claim C10: frame property of `_save_auth_info`. -/

/-- C10: on an existing, well-formed (JSON object) config file,
`_save_auth_info` touches at most the `auth_data` entry at the current
bed code: the resulting file still stores a JSON object in which every
other top-level key keeps its previous value, and, whenever `auth_data`
already exists as a list, every slot other than the saved code keeps its
previous value. -/
theorem save_auth_info_frame (code numBeds : Nat) (ai : PyVal)
    (es : List (String × PyVal)) :
    ∃ es', (save_auth_info code numBeds ai (.stored (.vdict es))).file
          = .stored (.vdict es') ∧
      (∀ k, k ≠ "auth_data" → es'.lookup k = es.lookup k) ∧
      (∀ xs j, es.lookup "auth_data" = some (.vlist xs) → j ≠ code →
        ∃ xs', es'.lookup "auth_data" = some (.vlist xs') ∧ xs'[j]? = xs[j]?) := by
  rcases hl : es.lookup "auth_data" with _ | ad
  · by_cases hc : code < numBeds
    · refine ⟨dictSet (dictSet es "auth_data"
          (.vlist (List.replicate numBeds (.vdict [])))) "auth_data"
          (.vlist ((List.replicate numBeds (.vdict [])).set code ai)), ?_, ?_, ?_⟩
      · simp [save_auth_info, setAuthSlot, hl, PyVal.setItem, PyVal.setIndex,
          lookup_dictSet_self, hc]
      · intro k hk
        rw [lookup_dictSet_ne _ _ _ _ hk, lookup_dictSet_ne _ _ _ _ hk]
      · intro xs j h _
        exact absurd h (by simp)
    · refine ⟨es, ?_, fun _ _ => rfl, ?_⟩
      · simp [save_auth_info, setAuthSlot, hl, PyVal.setItem, PyVal.setIndex,
          lookup_dictSet_self, hc]
      · intro xs j h _
        exact absurd h (by simp)
  · rcases ad with s | n | des | xs0
    · refine ⟨es, ?_, fun _ _ => rfl, ?_⟩
      · simp [save_auth_info, setAuthSlot, hl, PyVal.setIndex]
      · intro xs j h _
        exact absurd h (by simp)
    · refine ⟨es, ?_, fun _ _ => rfl, ?_⟩
      · simp [save_auth_info, setAuthSlot, hl, PyVal.setIndex]
      · intro xs j h _
        exact absurd h (by simp)
    · refine ⟨es, ?_, fun _ _ => rfl, ?_⟩
      · simp [save_auth_info, setAuthSlot, hl, PyVal.setIndex]
      · intro xs j h _
        exact absurd h (by simp)
    · by_cases hc : code < xs0.length
      · refine ⟨dictSet es "auth_data" (.vlist (xs0.set code ai)), ?_, ?_, ?_⟩
        · simp [save_auth_info, setAuthSlot, hl, PyVal.setIndex, hc]
        · intro k hk
          rw [lookup_dictSet_ne _ _ _ _ hk]
        · intro xs j h hj
          have hxs : xs0 = xs := by
            injection h with h'
            injection h'
          subst hxs
          exact ⟨xs0.set code ai, lookup_dictSet_self _ _ _,
            List.getElem?_set_ne (Ne.symm hj)⟩
      · refine ⟨es, ?_, fun _ _ => rfl, ?_⟩
        · simp [save_auth_info, setAuthSlot, hl, PyVal.setIndex, hc]
        · intro xs j h _
          have hxs : xs0 = xs := by
            injection h with h'
            injection h'
          subst hxs
          exact ⟨xs0, hl, rfl⟩

/-- Witness for `save_auth_info_frame`: saving slot 0 of a concrete
two-slot config leaves the `image_bed` key and slot 1 intact. -/
theorem save_auth_info_frame_witness :
    ∃ es', (save_auth_info 0 3 (.vstr "t")
        (.stored (.vdict [("image_bed", .vint 7),
          ("auth_data", .vlist [.vdict [], .vstr "x"])]))).file
        = .stored (.vdict es') ∧
      es'.lookup "image_bed" = some (.vint 7) ∧
      ∃ xs', es'.lookup "auth_data" = some (.vlist xs') ∧
        xs'[1]? = some (.vstr "x") := by
  obtain ⟨es', hf, hk, hs⟩ := save_auth_info_frame 0 3 (.vstr "t")
    [("image_bed", .vint 7), ("auth_data", .vlist [.vdict [], .vstr "x"])]
  obtain ⟨xs', hla, hg⟩ := hs [.vdict [], .vstr "x"] 1 rfl (by decide)
  refine ⟨es', hf, ?_, xs', hla, ?_⟩
  · rw [hk "image_bed" (by decide)]
    rfl
  · rw [hg]
    rfl

/-! Claim C1: the auto-compress branch of `_check_images_valid`. -/

theorem findUnsupported_eq_none (images : List ImageType) :
    findUnsupported images = none
      ↔ ∀ img ∈ images, imageMime img ∈ ["jpg", "png", "jpeg"] := by
  induction images with
  | nil => simp [findUnsupported]
  | cons img rest ih =>
      by_cases h : imageMime img ∈ ["jpg", "png", "jpeg"]
      · rw [show findUnsupported (img :: rest) = findUnsupported rest from by
          simp [findUnsupported, h], ih]
        constructor
        · intro hall x hx
          rcases List.mem_cons.mp hx with rfl | hx'
          · exact h
          · exact hall x hx'
        · intro hall x hx
          exact hall x (List.mem_cons_of_mem _ hx)
      · rw [show findUnsupported (img :: rest) = some (imageMime img) from by
          simp [findUnsupported, h]]
        constructor
        · intro hc
          exact absurd hc (by simp)
        · intro hall
          exact absurd (hall img (by simp)) h

/-- C1 counterexample: with auto-compression enabled, an image well
within the size limit (1 byte against a limit of 100) but with an
unsupported type is still rejected with `UnsupportedType` — refuting the
claim that undersized images always pass this validation. -/
theorem check_images_valid_undersized_counterexample :
    check_images_valid 100 true [.stream "a.gif" "gif" 1]
      = .error (.unsupportedType "GIF") ∧
    imageSize (.stream "a.gif" "gif" 1) ≤ 100 :=
  ⟨rfl, by decide⟩

/-- C1 (amended): with auto-compression enabled, `_check_images_valid`
never looks at sizes: it succeeds exactly when every image of the batch
— oversized or not — has its extension/MIME tag in the compressible set
jpg/png/jpeg, and otherwise raises `UnsupportedType` with the
upper-cased tag of the first offender; the per-bed limit plays no role
in this branch. -/
theorem check_images_valid_auto_compress (maxSize : Nat) (images : List ImageType) :
    (check_images_valid maxSize true images = .ok ()
      ↔ ∀ img ∈ images, imageMime img ∈ ["jpg", "png", "jpeg"]) ∧
    (∀ m, findUnsupported images = some m →
      check_images_valid maxSize true images
        = .error (.unsupportedType (pyUpper m))) := by
  constructor
  · have hok : check_images_valid maxSize true images = .ok ()
        ↔ findUnsupported images = none := by
      cases hf : findUnsupported images <;> simp [check_images_valid, hf]
    rw [hok, findUnsupported_eq_none]
  · intro m hm
    simp [check_images_valid, hm]

/-- Witness for `check_images_valid_auto_compress`: an undersized GIF
path is rejected, a compressible batch passes. -/
theorem check_images_valid_auto_compress_witness :
    check_images_valid 10 true [.path "b.gif" 50]
      = .error (.unsupportedType "GIF") ∧
    check_images_valid 10 true [.path "c.png" 50, .path "d.jpg" 3] = .ok () :=
  ⟨(check_images_valid_auto_compress 10 [.path "b.gif" 50]).2 "gif" rfl,
   (check_images_valid_auto_compress 10 [.path "c.png" 50, .path "d.jpg" 3]).1.mpr
     (by decide)⟩

/-! Claim C6: `_compress_image` is a no-op within budget. -/

/-- C6: an image whose byte size is at most the per-bed maximum is
returned by `_compress_image` unchanged — the same reference, with no
file written to the cache directory (the whole body is guarded by
`raw_size > max_size`). -/
theorem compress_image_noop (decode : ImageType → PILImage) (encSize : PILImage → Nat)
    (maxSize fuel : Nat) (cachePath : String) (image : ImageType)
    (h : imageSize image ≤ maxSize) :
    compress_image decode encSize maxSize fuel cachePath image = ⟨.ok image, []⟩ := by
  simp [compress_image, Nat.not_lt.mpr h]

/-- Witness for `compress_image_noop` on a concrete 80-byte image with a
100-byte limit. -/
theorem compress_image_noop_witness :
    compress_image (fun _ => ⟨"PNG", "RGB", 1, 1⟩) (fun _ => 0) 100 5 "cache"
      (.path "a.png" 80) = ⟨.ok (.path "a.png" 80), []⟩ :=
  compress_image_noop _ _ _ _ _ _ (by decide)

/-! Claim C7: the PNG path of `_compress_image`. -/

theorem compressStep_format (img : PILImage) (scale : ℚ) (img2 : PILImage)
    (h : compressStep img scale = .ok img2) : img2.format = "JPEG" := by
  unfold compressStep at h
  split at h
  · injection h with h2
    subst h2
    rfl
  · split at h
    · injection h with h2
      subst h2
      rfl
    · simp at h

theorem compressLoop_format (encSize : PILImage → Nat) (maxSize : Nat) :
    ∀ fuel img scale img' n,
      compressLoop encSize maxSize fuel img scale = .ok (img', n) →
      img'.format = "JPEG" := by
  intro fuel
  induction fuel with
  | zero =>
      intro img scale img' n h
      simp [compressLoop] at h
  | succ f ih =>
      intro img scale img' n h
      rw [compressLoop] at h
      cases hs : compressStep img scale with
      | error e => rw [hs] at h; simp at h
      | ok img2 =>
          rw [hs] at h
          simp only at h
          by_cases hn : encSize img2 > maxSize
          · rw [if_pos hn] at h
            exact ih img2 _ img' n h
          · rw [if_neg hn] at h
            injection h with h2
            have : img2 = img' := congrArg Prod.fst h2
            exact this ▸ compressStep_format img scale img2 hs

/-- C7 counterexample: for the oversized PNG file `dir/a.b.png`, the
cache file is named `a.jpeg` — the source keeps only the part of the
base name before the FIRST dot (`split(".")[0]`) — whereas the original
base name with extension `.jpeg` would be `a.b.jpeg`. -/
theorem compress_image_png_filename_counterexample :
    compress_image (fun _ => ⟨"PNG", "RGBA", 10, 10⟩) (fun _ => 50) 100 5 "cache"
      (.path "dir/a.b.png" 200)
      = ⟨.ok (.path ("cache" ++ "/" ++ "a.jpeg") 50), ["a.jpeg"]⟩ ∧
    ("a.jpeg" : String) ≠ "a.b" ++ ".jpeg" := by
  exact ⟨rfl, by decide⟩

/-- C7 (amended): for every image that exceeds the limit and decodes as
PNG, the first compression pass converts it to RGB mode and re-encodes
it as JPEG with both dimensions untouched; every candidate the shrink
loop ever accepts is JPEG-encoded; and when the loop terminates, the
bytes land in a cache file named by the part of the original base name
before the first dot, with extension `.jpeg`. -/
theorem compress_image_png (decode : ImageType → PILImage) (encSize : PILImage → Nat)
    (maxSize fuel : Nat) (cachePath : String) (image : ImageType)
    (hsize : maxSize < imageSize image)
    (hfmt : (decode image).format = "PNG") :
    compressStep (decode image) ((maxSize : ℚ) / (imageSize image : ℚ))
      = .ok ⟨"JPEG", "RGB", (decode image).width, (decode image).height⟩ ∧
    (∀ img' n, compressLoop encSize maxSize fuel (decode image)
        ((maxSize : ℚ) / (imageSize image : ℚ)) = .ok (img', n) →
      img'.format = "JPEG" ∧
      compress_image decode encSize maxSize fuel cachePath image =
        ⟨.ok (.path (cachePath ++ "/" ++ (cacheStem image ++ ".jpeg")) n),
         [cacheStem image ++ ".jpeg"]⟩) := by
  constructor
  · simp [compressStep, hfmt]
  · intro img' n hloop
    refine ⟨compressLoop_format encSize maxSize fuel _ _ img' n hloop, ?_⟩
    simp [compress_image, hsize, hfmt, hloop]

/-- Witness for `compress_image_png`: a 200-byte single-dot PNG under a
100-byte budget whose first JPEG encoding fits. -/
theorem compress_image_png_witness :
    compress_image (fun _ => ⟨"PNG", "RGBA", 10, 10⟩) (fun _ => 50) 100 5 "cache"
      (.path "photo.png" 200)
      = ⟨.ok (.path ("cache" ++ "/" ++ ("photo" ++ ".jpeg")) 50),
         ["photo" ++ ".jpeg"]⟩ :=
  ((compress_image_png (fun _ => ⟨"PNG", "RGBA", 10, 10⟩) (fun _ => 50) 100 5 "cache"
      (.path "photo.png" 200) (by decide) rfl).2
    ⟨"JPEG", "RGB", 10, 10⟩ 50 rfl).2

/-! Claim C4: `upload_images` validates before any network request. -/

/-- C4: `upload_images` validates the entire batch before processing any
image: whenever the policy check raises (an `OverSizeError` or an
`UnsupportedType`), the call fails with that error, no HTTP request has
been issued for any image of the batch, and the cache-clearing step is
never reached. -/
theorem upload_images_validates_first (env : Env) (images : List ImageType)
    (e : CheckError) (hlog : env.loggedIn = true)
    (hval : check_images_valid env.maxSize env.autoCompress images = .error e) :
    upload_images env images = ⟨.error (.invalid e), [], false⟩ := by
  simp [upload_images, hlog, hval]

/-- A concrete serving environment used by the witnesses: logged in, a
100-byte limit, no compression, no watermark, every request answered
201. -/
def sampleEnv : Env :=
  ⟨true, 100, false, false, id, fun _ => ⟨"PNG", "RGB", 1, 1⟩, fun _ => 0, 5,
    "cache", fun _ => ⟨201, "u1", ""⟩, none⟩

/-- Witness for `upload_images_validates_first`: a batch with one
oversized and one valid image, auto-compression disabled, fails with the
`OverSizeError` and issues no request. -/
theorem upload_images_validates_first_witness :
    upload_images sampleEnv [.path "big.png" 500, .path "ok.png" 50]
      = ⟨.error (.invalid (.overSize (some "big.png"))), [], false⟩ :=
  upload_images_validates_first sampleEnv _ _ rfl rfl

/-! Claim C8: `_upload` maps the response status to its result value. -/

/-- C8: in `_upload`, a 201 response yields the download URL taken from
the response body, passed through the bed-specific `cdn_url` hook when
the bed defines one; any other status yields
`UploadErrorResponse(status_code, message, str(image))` — returned as a
value, not raised — where the identifier is that of the image actually
sent (after compression/watermarking). -/
theorem upload_one_by_status (env : Env) (image img1 : ImageType)
    (hc : (envCompress env image).result = .ok img1) :
    ((env.respond (watermarkImage env img1)).status = 201 →
      upload_one env image = .ok (.url (applyCdn env.cdnUrl
          (env.respond (watermarkImage env img1)).downloadUrl),
        strOfImage (watermarkImage env img1))) ∧
    ((env.respond (watermarkImage env img1)).status ≠ 201 →
      upload_one env image = .ok (.uploadError
          (env.respond (watermarkImage env img1)).status
          (env.respond (watermarkImage env img1)).message
          (strOfImage (watermarkImage env img1)),
        strOfImage (watermarkImage env img1))) := by
  constructor
  · intro h
    simp [upload_one, hc, h]
  · intro h
    simp [upload_one, hc, h]

/-- Like `sampleEnv` but every request is refused with a 403. -/
def sampleEnvFail : Env :=
  ⟨true, 100, false, false, id, fun _ => ⟨"PNG", "RGB", 1, 1⟩, fun _ => 0, 5,
    "cache", fun _ => ⟨403, "", "Forbidden"⟩, none⟩

/-- Witness for `upload_one_by_status`, once against a 201 service and
once against a 403 service. -/
theorem upload_one_by_status_witness :
    upload_one sampleEnv (.path "a.png" 50) = .ok (.url "u1", "a.png") ∧
    upload_one sampleEnvFail (.path "a.png" 50)
      = .ok (.uploadError 403 "Forbidden" "a.png", "a.png") :=
  ⟨(upload_one_by_status sampleEnv (.path "a.png" 50) (.path "a.png" 50) rfl).1 rfl,
   (upload_one_by_status sampleEnvFail (.path "a.png" 50) (.path "a.png" 50) rfl).2
     (by decide)⟩

/-! Claim C5: `delete_images` collects failures under the literal key
`"sha"`. -/

/-- The last element of the failure list (the last failing item of the
batch), `none` when every deletion succeeded. -/
def lastFailure : List ErrorResponse → Option ErrorResponse
  | [] => none
  | e :: rest =>
      match lastFailure rest with
      | none => some e
      | some e' => some e'

theorem delete_loop_eq (respond : String → String → HttpResponse)
    (info : List (String × String)) :
    ∀ failed, delete_loop respond failed info =
      match lastFailure (failuresOf respond info) with
      | none => failed
      | some e => dictSet failed "sha" e := by
  induction info with
  | nil =>
      intro failed
      rfl
  | cons su rest ih =>
      intro failed
      obtain ⟨sha, u⟩ := su
      cases hd : delete_image (respond sha u) with
      | none =>
          have hfc : failuresOf respond ((sha, u) :: rest) = failuresOf respond rest := by
            simp [failuresOf, hd]
          rw [delete_loop, hd]
          rw [ih failed, hfc]
      | some e =>
          have hfc : failuresOf respond ((sha, u) :: rest)
              = e :: failuresOf respond rest := by
            simp [failuresOf, hd]
          rw [delete_loop, hd]
          show delete_loop respond (dictSet failed "sha" e) rest = _
          rw [ih (dictSet failed "sha" e), hfc]
          cases ht : lastFailure (failuresOf respond rest) with
          | none => simp [lastFailure, ht]
          | some e' => simp [lastFailure, ht, dictSet_dictSet]

/-- C5: `delete_images` returns only failures, every failure is stored
by the assignment `failed["sha"] = result` under the literal key
`"sha"`, so the resulting mapping holds at most one entry — the one
produced by the last failing item of the batch. -/
theorem delete_images_only_last_failure (respond : String → String → HttpResponse)
    (info : List (String × String)) :
    (delete_images respond info =
      match lastFailure (failuresOf respond info) with
      | none => []
      | some e => [("sha", e)]) ∧
    (delete_images respond info).length ≤ 1 := by
  have h := delete_loop_eq respond info []
  constructor
  · exact h
  · rw [delete_images, h]
    cases lastFailure (failuresOf respond info) <;> simp [dictSet]

/-! Claim C9: per-item results and cache clearing of `upload_images`. -/

/-- What `upload_images` owes each input image: compression succeeded on
it, and — depending on the service status for the image actually sent —
the recorded entry is a URL (status 201) or the corresponding
`UploadErrorResponse` (any other status). -/
def itemSpec (env : Env) (img : ImageType) (r : UploadResult) : Prop :=
  ∃ img1, (envCompress env img).result = .ok img1 ∧
    (((env.respond (watermarkImage env img1)).status = 201 ∧ ∃ u, r = .url u) ∨
     ((env.respond (watermarkImage env img1)).status ≠ 201 ∧
       r = .uploadError (env.respond (watermarkImage env img1)).status
             (env.respond (watermarkImage env img1)).message
             (strOfImage (watermarkImage env img1))))

theorem upload_loop_ok (env : Env) (images : List ImageType)
    (h : ∀ img ∈ images, ∃ img1, (envCompress env img).result = .ok img1) :
    ∃ rs ids, upload_loop env images = (.ok rs, ids) ∧
      List.Forall₂ (itemSpec env) images rs := by
  induction images with
  | nil => exact ⟨[], [], rfl, List.Forall₂.nil⟩
  | cons img rest ih =>
      obtain ⟨img1, h1⟩ := h img (by simp)
      obtain ⟨rs, ids, hl, hf⟩ := ih (fun i hi => h i (List.mem_cons_of_mem _ hi))
      by_cases hs : (env.respond (watermarkImage env img1)).status = 201
      · have hu : upload_one env img = .ok
            (.url (applyCdn env.cdnUrl
              (env.respond (watermarkImage env img1)).downloadUrl),
             strOfImage (watermarkImage env img1)) := by
          simp [upload_one, h1, hs]
        refine ⟨.url (applyCdn env.cdnUrl
            (env.respond (watermarkImage env img1)).downloadUrl) :: rs,
          strOfImage (watermarkImage env img1) :: ids, ?_, ?_⟩
        · simp [upload_loop, hu, hl]
        · exact List.Forall₂.cons ⟨img1, h1, Or.inl ⟨hs, _, rfl⟩⟩ hf
      · have hu : upload_one env img = .ok
            (.uploadError (env.respond (watermarkImage env img1)).status
              (env.respond (watermarkImage env img1)).message
              (strOfImage (watermarkImage env img1)),
             strOfImage (watermarkImage env img1)) := by
          simp [upload_one, h1, hs]
        refine ⟨.uploadError (env.respond (watermarkImage env img1)).status
            (env.respond (watermarkImage env img1)).message
            (strOfImage (watermarkImage env img1)) :: rs,
          strOfImage (watermarkImage env img1) :: ids, ?_, ?_⟩
        · simp [upload_loop, hu, hl]
        · exact List.Forall₂.cons ⟨img1, h1, Or.inr ⟨hs, rfl⟩⟩ hf

theorem cdnPass_itemSpec (env : Env) (images : List ImageType)
    (rs : List UploadResult) (hf : List.Forall₂ (itemSpec env) images rs) :
    List.Forall₂ (itemSpec env) images (cdnPass env.cdnUrl rs) := by
  cases hcdn : env.cdnUrl with
  | none => simpa [cdnPass] using hf
  | some f =>
      simp only [cdnPass]
      induction hf with
      | nil => simp
      | cons hhd htl ihh =>
          simp only [List.map_cons]
          refine List.Forall₂.cons ?_ ihh
          obtain ⟨img1, h1, hcase⟩ := hhd
          rcases hcase with ⟨hs, u, rfl⟩ | ⟨hs, rfl⟩
          · exact ⟨img1, h1, Or.inl ⟨hs, f u, rfl⟩⟩
          · exact ⟨img1, h1, Or.inr ⟨hs, rfl⟩⟩

/-- C9 counterexample: a batch that passes validation can still abort
mid-way and skip the cache clearing.  Both images carry a `.jpg`
extension, so the auto-compress validation accepts the batch; but the
first is oversized and actually decodes as GIF, so `_compress_image`
raises `UnsupportedType` inside the loop — the second image is never
uploaded, no result list is produced, and `_clear_cache` never runs. -/
def trickEnv : Env :=
  ⟨true, 100, true, false, id,
    (fun img => if imageIdent img = "trick.jpg"
      then ⟨"GIF", "P", 10, 10⟩ else ⟨"JPEG", "RGB", 10, 10⟩),
    fun _ => 50, 5, "cache", fun _ => ⟨201, "u1", ""⟩, none⟩

/-- C9 counterexample (see `trickEnv`): validation accepts the batch,
yet the call returns an aborting error, produces no per-image results,
and does not clear the cache. -/
theorem upload_images_abort_counterexample :
    check_images_valid trickEnv.maxSize trickEnv.autoCompress
      [.path "trick.jpg" 500, .path "ok.jpg" 50] = .ok () ∧
    upload_images trickEnv [.path "trick.jpg" 500, .path "ok.jpg" 50]
      = ⟨.error (.compressFailed (.unsupportedType "GIF")), [], false⟩ :=
  ⟨rfl, rfl⟩

/-- C9 (amended): when the batch passes validation and compression
succeeds on every image, `upload_images` returns exactly one result per
input image in input order — a URL at every position answered 201, the
corresponding `UploadErrorResponse` at every other position, one image's
failure never aborting the rest — and clears the cache directory at the
end regardless of those individual failures.  (The compression proviso
is needed: see the counterexample, where a validated image whose decoded
format is unsupported raises mid-batch, aborting the rest and skipping
the cache clear.) -/
theorem upload_images_per_item (env : Env) (images : List ImageType)
    (hlog : env.loggedIn = true)
    (hval : check_images_valid env.maxSize env.autoCompress images = .ok ())
    (hcomp : ∀ img ∈ images, ∃ img1, (envCompress env img).result = .ok img1) :
    ∃ rs ids, upload_images env images = ⟨.ok rs, ids, true⟩ ∧
      rs.length = images.length ∧
      List.Forall₂ (itemSpec env) images rs := by
  obtain ⟨rs, ids, hl, hf⟩ := upload_loop_ok env images hcomp
  have hf2 := cdnPass_itemSpec env images rs hf
  refine ⟨cdnPass env.cdnUrl rs, ids, ?_, hf2.length_eq.symm, hf2⟩
  simp [upload_images, hlog, hval, hl]

/-- Like `sampleEnv` but the service accepts `a.png` with a 201 and
refuses everything else with a 403. -/
def mixedEnv : Env :=
  ⟨true, 100, false, false, id, fun _ => ⟨"PNG", "RGB", 1, 1⟩, fun _ => 0, 5,
    "cache",
    (fun img => if imageIdent img = "a.png"
      then ⟨201, "u1", ""⟩ else ⟨403, "", "Forbidden"⟩),
    none⟩

/-- Witness for `upload_images_per_item`: a two-image batch against
`mixedEnv` yields the URL for the first image, the 403 error for the
second, in order, with the cache cleared. -/
theorem upload_images_per_item_witness :
    ∃ rs ids, upload_images mixedEnv [.path "a.png" 50, .path "b.png" 60]
        = ⟨.ok rs, ids, true⟩ ∧
      rs.length = 2 ∧
      List.Forall₂ (itemSpec mixedEnv) [.path "a.png" 50, .path "b.png" 60] rs := by
  obtain ⟨rs, ids, hu, hlen, hf⟩ :=
    upload_images_per_item mixedEnv [.path "a.png" 50, .path "b.png" 60] rfl rfl
      (by
        intro img hi
        rcases List.mem_cons.mp hi with rfl | hi'
        · exact ⟨.path "a.png" 50, rfl⟩
        · rcases List.mem_cons.mp hi' with rfl | hi''
          · exact ⟨.path "b.png" 60, rfl⟩
          · exact absurd hi'' (by simp))
  exact ⟨rs, ids, hu, hlen, hf⟩

end Up2b
